import Mathlib

/-!
Shallow embedding of the calendar-synchronization core of the TaskFlow
backend (`taskflow-backend/src/server.js`).

Conventions of the embedding:
* JavaScript optional / nullable values are `Option`; `none` stands for
  `undefined`/`null` (and, where a JS truthiness test is performed, the
  helper `truthyS` additionally treats the empty string as falsy, matching
  `!x` in JS).
* Firestore documents are modelled as association lists keyed by
  `(uid, docId)`; `set` with `merge:true` is a field-by-field merge.
* The external Google Calendar provider is a parameter: a `Provider σ`
  carries the provider's own state `σ` and each call may fail
  (`Outcome.thrown`), which models a rejected promise.
* Luxon `DateTime` values are abstracted to an instant (minutes) plus a
  zone name (`LDT`); `DateTime.fromISO(s, {zone})` is an arbitrary
  function parameter `fromISO`, since its behavior belongs to the luxon
  library, not to this repository. `plus({minutes:30})` adds 30 to the
  instant and keeps the zone, as luxon does.
* Timestamps (`new Date()`) within one request are a single parameter
  `now : Nat`.
-/

namespace TaskFlow

/-- Truthiness of an optional JS string: `undefined`, `null` and `""` are
all falsy, any other string is truthy. -/
def truthyS (o : Option String) : Bool :=
  o.getD "" ≠ ""

/-- Truthiness of an optional JS boolean: `undefined` is falsy. -/
def truthyB (o : Option Bool) : Bool :=
  o.getD false

/-- Google OAuth token blob stored per user (the `tokens` value persisted
under `userSecrets/{uid}/integrations/google`). `none` = field absent. -/
structure Tokens where
  access_token : Option String := none
  refresh_token : Option String := none
  expiry_date : Option Int := none
  scope : Option String := none
deriving Repr, DecidableEq

/-- JS spread merge of token blobs: fields present in `newer` overwrite,
fields absent in `newer` are retained from `older`. -/
def tokensMerge (older newer : Tokens) : Tokens where
  access_token := newer.access_token.orElse fun _ => older.access_token
  refresh_token := newer.refresh_token.orElse fun _ => older.refresh_token
  expiry_date := newer.expiry_date.orElse fun _ => older.expiry_date
  scope := newer.scope.orElse fun _ => older.scope

/-- The `oauth2Client.on('tokens', ...)` refresh callback registered in
`calendarClientFor`: when the notification carries a refresh or an access
token it writes the spread merge of the captured stored blob and the
notification back to the store; otherwise no write happens and the stored
blob stays as it was. Returns the resulting stored blob. -/
def onTokens (stored notif : Tokens) : Tokens :=
  if truthyS notif.refresh_token || truthyS notif.access_token then
    tokensMerge stored notif
  else
    stored

/-- Association-list read keyed by decidable equality (Firestore point read). -/
def getAssoc {κ ν : Type} [DecidableEq κ] (l : List (κ × ν)) (k : κ) : Option ν :=
  match l with
  | [] => none
  | (a, v) :: rest => if a = k then some v else getAssoc rest k

/-- Association-list write: replaces any record stored under `k` by `v`. -/
def setAssoc {κ ν : Type} [DecidableEq κ] (l : List (κ × ν)) (k : κ) (v : ν) : List (κ × ν) :=
  (k, v) :: l.filter (fun p => p.1 ≠ k)

/-- Association-list delete (Firestore document delete). -/
def delAssoc {κ ν : Type} [DecidableEq κ] (l : List (κ × ν)) (k : κ) : List (κ × ν) :=
  l.filter (fun p => p.1 ≠ k)

/-- Luxon DateTime abstracted to an instant in minutes plus a zone name. -/
structure LDT where
  minutes : Int
  zone : String
deriving Repr, DecidableEq

/-- Luxon `plus({minutes: m})`: shifts the instant, keeps the zone. -/
def LDT.plusMinutes (d : LDT) (m : Int) : LDT :=
  { d with minutes := d.minutes + m }

/-- Google Calendar event request body built by `upsertCalendarEvent`
(`summary`, `description`, `start`, `end`). The start/end carry both the
instant and the zone name, as the JS payload carries `dateTime`/`timeZone`. -/
structure EventPayload where
  summary : Option String
  description : String
  startT : LDT
  endT : LDT
deriving Repr, DecidableEq

/-- One observable call to the Google Calendar provider. -/
inductive CalCall where
  | insert (ev : EventPayload)
  | update (eventId : String) (ev : EventPayload)
  | delete (eventId : String)
deriving Repr, DecidableEq

/-- Result of a JS async operation: either a value or a thrown error. -/
inductive Outcome (α : Type) where
  | ok (a : α)
  | thrown (e : String)
deriving Repr, DecidableEq

/-- The external Google Calendar provider, with its own state `σ`.
`insert`/`update` resolve to the id of the resulting event (`resp.data.id`);
any call may reject. -/
structure Provider (σ : Type) where
  insert : σ → EventPayload → Outcome (σ × String)
  update : σ → String → EventPayload → Outcome (σ × String)
  delete : σ → String → Outcome σ

/-- Firestore task document. Every field is optional because a document
written through `PATCH`'s `set(..., merge:true)` may hold any subset. -/
structure TaskDoc where
  title : Option String := none
  description : Option String := none
  dueDateTime : Option String := none
  priority : Option String := none
  category : Option String := none
  tags : Option (List String) := none
  reminder : Option String := none
  calendarSync : Option Bool := none
  timezone : Option String := none
  completed : Option Bool := none
  calendarEventId : Option String := none
  createdAt : Option Nat := none
  updatedAt : Option Nat := none
deriving Repr, DecidableEq

/-- The empty document (no fields). -/
def emptyDoc : TaskDoc := {}

/-- Firestore `set(payload, {merge:true})`: fields present in `p`
overwrite, fields absent in `p` are retained. -/
def mergeDoc (old p : TaskDoc) : TaskDoc where
  title := p.title.orElse fun _ => old.title
  description := p.description.orElse fun _ => old.description
  dueDateTime := p.dueDateTime.orElse fun _ => old.dueDateTime
  priority := p.priority.orElse fun _ => old.priority
  category := p.category.orElse fun _ => old.category
  tags := p.tags.orElse fun _ => old.tags
  reminder := p.reminder.orElse fun _ => old.reminder
  calendarSync := p.calendarSync.orElse fun _ => old.calendarSync
  timezone := p.timezone.orElse fun _ => old.timezone
  completed := p.completed.orElse fun _ => old.completed
  calendarEventId := p.calendarEventId.orElse fun _ => old.calendarEventId
  createdAt := p.createdAt.orElse fun _ => old.createdAt
  updatedAt := p.updatedAt.orElse fun _ => old.updatedAt

/-- Backend-visible persistent state: the per-user credential store, the
per-user task collections, and the external calendar provider's state. -/
structure St (σ : Type) where
  creds : List (String × Tokens)
  tasks : List ((String × String) × TaskDoc)
  cal : σ

/-- Mirrors `calendarClientFor(uid)`: read the stored token blob; if there
is none, or it has neither a (truthy) refresh token nor a (truthy) access
token, return `null`; otherwise a client bound to those credentials. -/
def calendarClientFor (creds : List (String × Tokens)) (uid : String) : Option Tokens :=
  match getAssoc creds uid with
  | none => none
  | some t =>
    if ¬ truthyS t.refresh_token ∧ ¬ truthyS t.access_token then none
    else some t

/-- The task value handed to `upsertCalendarEvent` (the fields it reads). -/
structure UTask where
  title : Option String := none
  description : Option String := none
  dueDateTime : Option String := none
  timezone : Option String := none
  calendarEventId : Option String := none
deriving Repr, DecidableEq

/-- JS `task.timezone || 'Africa/Lagos'`. -/
def zoneOf (tz : Option String) : String :=
  match tz with
  | some s => if s = "" then "Africa/Lagos" else s
  | none => "Africa/Lagos"

/-- Event payload built by `upsertCalendarEvent`: summary from the title,
description or empty, start parsed from `dueDateTime` in the task's zone
(with the fixed fallback), end = start plus 30 minutes. -/
def buildEvent (fromISO : Option String → String → LDT) (t : UTask) : EventPayload :=
  let start := fromISO t.dueDateTime (zoneOf t.timezone)
  { summary := t.title
    description := t.description.getD ""
    startT := start
    endT := start.plusMinutes 30 }

/-- Mirrors `upsertCalendarEvent(uid, task)`: resolve a client (null when
not connected, in which case the result is `null` and no provider call is
made); otherwise build the event payload and either update the existing
event (when `task.calendarEventId` is truthy) or insert a new one,
returning the resulting event id. The second component records the
provider calls issued. -/
def upsertCalendarEvent {σ : Type} (P : Provider σ)
    (fromISO : Option String → String → LDT)
    (creds : List (String × Tokens)) (cal : σ) (uid : String) (t : UTask) :
    Outcome (σ × Option String) × List CalCall :=
  match calendarClientFor creds uid with
  | none => (.ok (cal, none), [])
  | some _ =>
    let ev := buildEvent fromISO t
    if truthyS t.calendarEventId then
      let eid := t.calendarEventId.getD ""
      match P.update cal eid ev with
      | .ok (cal2, rid) => (.ok (cal2, some rid), [.update eid ev])
      | .thrown e => (.thrown e, [.update eid ev])
    else
      match P.insert cal ev with
      | .ok (cal2, rid) => (.ok (cal2, some rid), [.insert ev])
      | .thrown e => (.thrown e, [.insert ev])

/-- Response values of the task endpoints. -/
inductive TResp where
  | created (id : String) (doc : TaskDoc)
  | okTask (id : String) (doc : TaskDoc)
  | okTrue
  | badRequest (msg : String)
deriving Repr, DecidableEq

/-- Result of one task-endpoint request: the response (or a propagated
thrown error), the state after the request, and the provider calls made. -/
structure HRes (σ : Type) where
  resp : Outcome TResp
  st : St σ
  calls : List CalCall

/-- Request body of `POST /tasks` (the destructured fields). -/
structure PostBody where
  title : Option String := none
  description : Option String := none
  dueDateTime : Option String := none
  priority : Option String := none
  category : Option String := none
  tags : Option (List String) := none
  reminder : Option String := none
  calendarSync : Option Bool := none
  timezone : Option String := none
deriving Repr, DecidableEq

/-- The document written by `POST /tasks` (`col.add({...})`): destructuring
defaults applied, `description || ''`, `dueDateTime || null`,
`completed:false`, both timestamps, and no `calendarEventId` field yet. -/
def postDoc (b : PostBody) (now : Nat) : TaskDoc where
  title := some (b.title.getD "")
  description := some (b.description.getD "")
  dueDateTime := if truthyS b.dueDateTime then b.dueDateTime else none
  priority := some (b.priority.getD "medium")
  category := some (b.category.getD "other")
  tags := some (b.tags.getD [])
  reminder := some (b.reminder.getD "none")
  calendarSync := some (b.calendarSync.getD false)
  timezone := some (b.timezone.getD "Africa/Lagos")
  completed := some false
  calendarEventId := none
  createdAt := some now
  updatedAt := some now

/-- The task literal `POST /tasks` hands to `upsertCalendarEvent`:
`{id, title, description, dueDateTime, timezone}` (no `calendarEventId`). -/
def postUTask (b : PostBody) : UTask where
  title := b.title
  description := b.description
  dueDateTime := b.dueDateTime
  timezone := some (b.timezone.getD "Africa/Lagos")
  calendarEventId := none

/-- Mirrors `app.post('/tasks')`: reject a falsy title with 400, write the
document, and when `calendarSync && dueDateTime` run the upsert — a thrown
upsert propagates (the document stays written, without `calendarEventId`);
on success the returned id (possibly `null`) is written onto the document
and the response is 201 with the re-read document. -/
def postTasks {σ : Type} (P : Provider σ) (fromISO : Option String → String → LDT)
    (st : St σ) (uid freshId : String) (now : Nat) (b : PostBody) : HRes σ :=
  if ¬ truthyS b.title then
    { resp := .ok (.badRequest "title is required"), st := st, calls := [] }
  else
    let doc := postDoc b now
    let tasks1 := setAssoc st.tasks (uid, freshId) doc
    if b.calendarSync.getD false ∧ truthyS b.dueDateTime then
      match upsertCalendarEvent P fromISO st.creds st.cal uid (postUTask b) with
      | (.thrown e, cs) =>
        { resp := .thrown e, st := { st with tasks := tasks1 }, calls := cs }
      | (.ok (cal2, eidOpt), cs) =>
        let doc2 := { doc with calendarEventId := eidOpt, updatedAt := some now }
        { resp := .ok (.created freshId doc2)
          st := { st with tasks := setAssoc tasks1 (uid, freshId) doc2, cal := cal2 }
          calls := cs }
    else
      { resp := .ok (.created freshId doc), st := { st with tasks := tasks1 }, calls := [] }

/-- The guard of the sync block in `app.patch('/tasks/:id')`:
`(payload.calendarSync || payload.dueDateTime) && payload.calendarSync !== false`.
It inspects the request payload, not the stored task. -/
def patchSyncGuard (payload : TaskDoc) : Bool :=
  (truthyB payload.calendarSync || truthyS payload.dueDateTime)
    && payload.calendarSync != some false

/-- The task value `{id, ...snap.data()}` the patch handler hands to
`upsertCalendarEvent`. -/
def patchUTask (d : TaskDoc) : UTask where
  title := d.title
  description := d.description
  dueDateTime := d.dueDateTime
  timezone := d.timezone
  calendarEventId := d.calendarEventId

/-- Mirrors `app.patch('/tasks/:id')`: merge `{...req.body, updatedAt}`
into the (possibly absent) document, then, when the payload guard holds
and the merged task has a truthy `dueDateTime`, run the upsert — a thrown
upsert propagates; on success the returned id (possibly `null`) is written
onto the document. The response is 200 with the re-read document. -/
def patchTasks {σ : Type} (P : Provider σ) (fromISO : Option String → String → LDT)
    (st : St σ) (uid id : String) (now : Nat) (b : TaskDoc) : HRes σ :=
  let payload := { b with updatedAt := some now }
  let old := (getAssoc st.tasks (uid, id)).getD emptyDoc
  let doc1 := mergeDoc old payload
  let tasks1 := setAssoc st.tasks (uid, id) doc1
  if patchSyncGuard payload then
    if truthyS doc1.dueDateTime then
      match upsertCalendarEvent P fromISO st.creds st.cal uid (patchUTask doc1) with
      | (.thrown e, cs) =>
        { resp := .thrown e, st := { st with tasks := tasks1 }, calls := cs }
      | (.ok (cal2, eidOpt), cs) =>
        let doc2 := { doc1 with calendarEventId := eidOpt, updatedAt := some now }
        { resp := .ok (.okTask id doc2)
          st := { st with tasks := setAssoc tasks1 (uid, id) doc2, cal := cal2 }
          calls := cs }
    else
      { resp := .ok (.okTask id doc1), st := { st with tasks := tasks1 }, calls := [] }
  else
    { resp := .ok (.okTask id doc1), st := { st with tasks := tasks1 }, calls := [] }

/-- Mirrors `app.delete('/tasks/:id')`: when the stored task carries a
truthy `calendarEventId` and a calendar client resolves, attempt the
remote event deletion inside `try {} catch {}` (the failure is swallowed);
then delete the document unconditionally and answer `{ok:true}`. -/
def deleteTasks {σ : Type} (P : Provider σ) (st : St σ) (uid id : String) : HRes σ :=
  let snap := getAssoc st.tasks (uid, id)
  let tasksAfter := delAssoc st.tasks (uid, id)
  match snap with
  | some d =>
    if truthyS d.calendarEventId then
      match calendarClientFor st.creds uid with
      | some _ =>
        let eid := d.calendarEventId.getD ""
        match P.delete st.cal eid with
        | .ok cal2 =>
          { resp := .ok .okTrue, st := { st with tasks := tasksAfter, cal := cal2 }
            calls := [.delete eid] }
        | .thrown _ =>
          { resp := .ok .okTrue, st := { st with tasks := tasksAfter }
            calls := [.delete eid] }
      | none =>
        { resp := .ok .okTrue, st := { st with tasks := tasksAfter }, calls := [] }
    else
      { resp := .ok .okTrue, st := { st with tasks := tasksAfter }, calls := [] }
  | none =>
    { resp := .ok .okTrue, st := { st with tasks := tasksAfter }, calls := [] }

/-- The `state` payload recovered by `JSON.parse` in the OAuth callback. -/
structure OAuthState where
  uid : Option String := none
  returnTo : Option String := none
deriving Repr, DecidableEq

/-- Responses of `GET /calendar/oauth2callback`. -/
inductive CbResp where
  | redirect (returnTo : String)
  | badRequest (msg : String)
  | serverError (msg : String)
deriving Repr, DecidableEq

/-- The parse step `state ? JSON.parse(state) : {}` of the OAuth
callback; `parseState` models `JSON.parse` (external library behavior),
and a thrown outcome models a parse error. -/
def cbParsed (parseState : String → Outcome OAuthState) (stateQ : Option String) :
    Outcome OAuthState :=
  if truthyS stateQ then parseState (stateQ.getD "") else .ok {}

/-- Mirrors `app.get('/calendar/oauth2callback')`: parse the state when
truthy (a parse failure is caught and answered 500), exchange the code
(an exchange failure is caught and answered 500), only then check the
uid (400 when falsy), merge `{tokens}` into the user's credential record,
and answer the redirect script page with
`parsed.returnTo || POST_OAUTH_REDIRECT || '/'`. `getToken` models
`oauth2Client.getToken(code)`, external library behavior. Returns the
response and the resulting credential store. -/
def oauthCallback (parseState : String → Outcome OAuthState)
    (getToken : Option String → Outcome Tokens)
    (postOAuthRedirect : Option String)
    (creds : List (String × Tokens)) (code : Option String) (stateQ : Option String) :
    CbResp × List (String × Tokens) :=
  match cbParsed parseState stateQ with
  | .thrown _ => (.serverError "OAuth error", creds)
  | .ok parsed =>
    match getToken code with
    | .thrown _ => (.serverError "OAuth error", creds)
    | .ok tokens =>
      if ¬ truthyS parsed.uid then (.badRequest "Missing user context.", creds)
      else
        let uid := parsed.uid.getD ""
        let old := (getAssoc creds uid).getD {}
        let returnTo :=
          if truthyS parsed.returnTo then parsed.returnTo.getD ""
          else if truthyS postOAuthRedirect then postOAuthRedirect.getD ""
          else "/"
        (.redirect returnTo, setAssoc creds uid (tokensMerge old tokens))

/-- State of an honest calendar provider: its events keyed by id, plus a
counter for fresh ids. -/
structure CalState where
  events : List (String × EventPayload)
  nextId : Nat
deriving Repr, DecidableEq

/-- Fresh event id produced by the honest provider. -/
def freshEventId (n : Nat) : String := "evt" ++ toString n

/-- Replace the payload stored under an existing event id. -/
def setEvent : List (String × EventPayload) → String → EventPayload → List (String × EventPayload)
  | [], _, _ => []
  | (a, v) :: rest, eid, ev =>
    if a = eid then (a, ev) :: setEvent rest eid ev else (a, v) :: setEvent rest eid ev

/-- Honest model of the Google Calendar API: `insert` creates a fresh
event and returns its id, `update` replaces an existing event in place and
returns the same id (404 when absent), `delete` removes it (404 when
absent). -/
def GCal : Provider CalState where
  insert := fun s ev =>
    .ok ({ events := (freshEventId s.nextId, ev) :: s.events, nextId := s.nextId + 1 },
      freshEventId s.nextId)
  update := fun s eid ev =>
    if (getAssoc s.events eid).isSome then
      .ok ({ s with events := setEvent s.events eid ev }, eid)
    else .thrown "Not Found"
  delete := fun s eid =>
    if (getAssoc s.events eid).isSome then .ok { s with events := delAssoc s.events eid }
    else .thrown "Not Found"

theorem getAssoc_setAssoc_self {κ ν : Type} [DecidableEq κ] (l : List (κ × ν)) (k : κ) (v : ν) :
    getAssoc (setAssoc l k v) k = some v := by
  simp [getAssoc, setAssoc]

theorem getAssoc_delAssoc_self {κ ν : Type} [DecidableEq κ] (l : List (κ × ν)) (k : κ) :
    getAssoc (delAssoc l k) k = none := by
  induction l with
  | nil => rfl
  | cons p rest ih =>
    by_cases h : p.1 = k
    · simpa [delAssoc, h] using ih
    · simpa [delAssoc, getAssoc, h] using ih

theorem length_setEvent (l : List (String × EventPayload)) (eid : String) (ev : EventPayload) :
    (setEvent l eid ev).length = l.length := by
  induction l with
  | nil => rfl
  | cons p rest ih =>
    obtain ⟨a, v⟩ := p
    by_cases h : a = eid <;> simp [setEvent, h, ih]

theorem getAssoc_setEvent_isSome (l : List (String × EventPayload)) (eid : String)
    (ev : EventPayload) :
    (getAssoc (setEvent l eid ev) eid).isSome = (getAssoc l eid).isSome := by
  induction l with
  | nil => rfl
  | cons p rest ih =>
    obtain ⟨a, v⟩ := p
    by_cases h : a = eid <;> simp [setEvent, getAssoc, h, ih]

/-- Oracle provider over trivial state, used for concrete instances. -/
def oracleProvider (insOut updOut : Outcome (Unit × String)) (delOut : Outcome Unit) :
    Provider Unit where
  insert := fun _ _ => insOut
  update := fun _ _ _ => updOut
  delete := fun _ _ => delOut

/-- Provider whose calls all succeed, returning event id `"E1"`. -/
def okProvider : Provider Unit :=
  oracleProvider (.ok ((), "E1")) (.ok ((), "E1")) (.ok ())

/-- Provider whose calls all reject. -/
def failProvider : Provider Unit :=
  oracleProvider (.thrown "provider down") (.thrown "provider down") (.thrown "provider down")

/-- A concrete luxon stand-in: instant 0 in the requested zone. -/
def fixedISO : Option String → String → LDT := fun _ z => ⟨0, z⟩

/-- Credential store holding one connected user `"u"`. -/
def wCreds : List (String × Tokens) := [("u", { access_token := some "AT" })]

/-- C2: a refresh notification carrying only an access token is merged
field-by-field into the stored credential record: the new access token
overwrites, the omitted refresh token is retained, and every other
omitted field is retained as well — the record is not replaced wholesale. -/
theorem c2_refresh_merge_preserves_refresh_token
    (stored : Tokens) (A R B : String)
    (hA : stored.access_token = some A) (hR : stored.refresh_token = some R)
    (hB : B ≠ "") :
    onTokens stored { access_token := some B } =
      { access_token := some B, refresh_token := some R,
        expiry_date := stored.expiry_date, scope := stored.scope } := by
  simp [onTokens, truthyS, hB, tokensMerge, Option.orElse, hR]

/-- Witness for C2 at a concrete credential record. -/
theorem c2_witness :
    onTokens { access_token := some "A", refresh_token := some "R" }
        { access_token := some "B" } =
      { access_token := some "B", refresh_token := some "R" } :=
  c2_refresh_merge_preserves_refresh_token
    { access_token := some "A", refresh_token := some "R" } "A" "R" "B" rfl rfl (by decide)

/-- C6: a user with no stored credential record, or one with neither a
refresh token nor an access token, resolves to a `null` calendar client
without error, and the upsert for such a user returns `null` without
throwing and makes no provider call, leaving the task valid. -/
theorem c6_not_connected_is_benign
    (creds : List (String × Tokens)) (uid : String)
    (h : getAssoc creds uid = none ∨
      ∃ t, getAssoc creds uid = some t ∧ ¬ truthyS t.refresh_token ∧ ¬ truthyS t.access_token) :
    calendarClientFor creds uid = none ∧
    ∀ (σ : Type) (P : Provider σ) (fromISO : Option String → String → LDT) (cal : σ) (t : UTask),
      upsertCalendarEvent P fromISO creds cal uid t = (.ok (cal, none), []) := by
  have hc : calendarClientFor creds uid = none := by
    rcases h with h | ⟨t, ht, h1, h2⟩
    · simp [calendarClientFor, h]
    · simp only [calendarClientFor, ht]
      rw [if_pos ⟨h1, h2⟩]
  refine ⟨hc, fun σ P fromISO cal t => ?_⟩
  simp [upsertCalendarEvent, hc]

/-- Witness for C6: the empty credential store. -/
theorem c6_witness :
    calendarClientFor [] "u" = none ∧
      upsertCalendarEvent okProvider fixedISO [] () "u" {} = (.ok ((), none), []) := by
  have h := c6_not_connected_is_benign [] "u" (Or.inl rfl)
  exact ⟨h.1, h.2 Unit okProvider fixedISO () {}⟩

/-- C8: a POST /tasks body with a falsy title is rejected with the 400
validation error, no task document is written (the state is unchanged)
and no calendar provider call is made. -/
theorem c8_post_missing_title_is_atomic
    {σ : Type} (P : Provider σ) (fromISO : Option String → String → LDT)
    (st : St σ) (uid freshId : String) (now : Nat) (b : PostBody)
    (h : ¬ truthyS b.title) :
    postTasks P fromISO st uid freshId now b =
      { resp := .ok (.badRequest "title is required"), st := st, calls := [] } := by
  simp [postTasks, h]

/-- Witness for C8 at the empty body. -/
theorem c8_witness :
    postTasks okProvider fixedISO { creds := [], tasks := [], cal := () } "u" "t1" 0 {} =
      { resp := .ok (.badRequest "title is required")
        st := { creds := [], tasks := [], cal := () }, calls := [] } :=
  c8_post_missing_title_is_atomic okProvider fixedISO
    { creds := [], tasks := [], cal := () } "u" "t1" 0 {} (by decide)

/-- A synced task document carrying a remote event id. -/
def wDocSynced : TaskDoc := { title := some "t", calendarEventId := some "E1" }

/-- State holding the connected user `"u"` and one synced task `"t1"`. -/
def wStDel : St Unit := { creds := wCreds, tasks := [(("u", "t1"), wDocSynced)], cal := () }

/-- A POST body requesting calendar sync with a due date. -/
def wPostBody : PostBody :=
  { title := some "t", dueDateTime := some "2024-05-01T09:00", calendarSync := some true }

/-- State holding the connected user `"u"` and no tasks. -/
def wStPost : St Unit := { creds := wCreds, tasks := [], cal := () }

theorem deleteTasks_resp_and_tasks {σ : Type} (P : Provider σ) (st : St σ) (uid id : String) :
    (deleteTasks P st uid id).resp = .ok .okTrue ∧
    (deleteTasks P st uid id).st.tasks = delAssoc st.tasks (uid, id) := by
  unfold deleteTasks
  cases getAssoc st.tasks (uid, id) with
  | none => exact ⟨rfl, rfl⟩
  | some d =>
    cases htr : truthyS d.calendarEventId with
    | false => simp [htr]
    | true =>
      simp only [htr, if_true]
      cases calendarClientFor st.creds uid with
      | none => exact ⟨rfl, rfl⟩
      | some tk =>
        cases P.delete st.cal (d.calendarEventId.getD "") <;> exact ⟨rfl, rfl⟩

/-- C5: deleting a task whose record carries a calendarEventId answers
`{ok:true}` and removes the record unconditionally, under every provider
behavior — a remote-deletion failure is swallowed; and whenever a
calendar client resolves, the remote event deletion is attempted. -/
theorem c5_delete_swallows_calendar_failure
    {σ : Type} (P : Provider σ) (st : St σ) (uid id : String) (d : TaskDoc) (e : String)
    (hd : getAssoc st.tasks (uid, id) = some d)
    (he : d.calendarEventId = some e) (hne : e ≠ "") :
    (deleteTasks P st uid id).resp = .ok .okTrue ∧
    getAssoc (deleteTasks P st uid id).st.tasks (uid, id) = none ∧
    ((calendarClientFor st.creds uid).isSome →
      (deleteTasks P st uid id).calls = [.delete e]) := by
  have htr : truthyS d.calendarEventId = true := by simp [truthyS, he, hne]
  have hgd : d.calendarEventId.getD "" = e := by rw [he]; rfl
  have base := deleteTasks_resp_and_tasks P st uid id
  refine ⟨base.1, ?_, ?_⟩
  · rw [base.2]
    exact getAssoc_delAssoc_self st.tasks (uid, id)
  · intro hcs
    obtain ⟨tk, htk⟩ := Option.isSome_iff_exists.mp hcs
    simp only [deleteTasks, hd, htr, if_true, htk, hgd]
    cases P.delete st.cal e <;> rfl

/-- Witness for C5: the remote deletion rejects, the task is removed anyway. -/
theorem c5_witness :
    (deleteTasks failProvider wStDel "u" "t1").resp = .ok .okTrue ∧
    getAssoc (deleteTasks failProvider wStDel "u" "t1").st.tasks ("u", "t1") = none ∧
    (deleteTasks failProvider wStDel "u" "t1").calls = [.delete "E1"] := by
  have h := c5_delete_swallows_calendar_failure failProvider wStDel "u" "t1" wDocSynced "E1"
    (by decide) rfl (by decide)
  exact ⟨h.1, h.2.1, h.2.2 (by decide)⟩

/-- C7: on POST /tasks with sync requested and a due date, for a connected
user, a throwing provider insert propagates out of the handler (the whole
request fails), while the task document has already been written without a
calendarEventId — the accepted partial-write window — and the failing
insert call was issued; the sync error is not swallowed. -/
theorem c7_post_sync_error_propagates
    {σ : Type} (P : Provider σ) (fromISO : Option String → String → LDT)
    (st : St σ) (uid freshId : String) (now : Nat) (b : PostBody) (e : String)
    (ht : truthyS b.title) (hs : b.calendarSync = some true) (hdue : truthyS b.dueDateTime)
    (hc : (calendarClientFor st.creds uid).isSome)
    (hp : P.insert st.cal (buildEvent fromISO (postUTask b)) = .thrown e) :
    (postTasks P fromISO st uid freshId now b).resp = .thrown e ∧
    getAssoc (postTasks P fromISO st uid freshId now b).st.tasks (uid, freshId) =
      some (postDoc b now) ∧
    (postDoc b now).calendarEventId = none ∧
    (postTasks P fromISO st uid freshId now b).calls =
      [.insert (buildEvent fromISO (postUTask b))] := by
  obtain ⟨tk, htk⟩ := Option.isSome_iff_exists.mp hc
  have hcen : truthyS (postUTask b).calendarEventId = false := rfl
  have hup : upsertCalendarEvent P fromISO st.creds st.cal uid (postUTask b) =
      (.thrown e, [.insert (buildEvent fromISO (postUTask b))]) := by
    simp only [upsertCalendarEvent, htk, hcen, Bool.false_eq_true, if_false, hp]
  have hres : postTasks P fromISO st uid freshId now b =
      { resp := .thrown e
        st := { st with tasks := setAssoc st.tasks (uid, freshId) (postDoc b now) }
        calls := [.insert (buildEvent fromISO (postUTask b))] } := by
    simp only [postTasks]
    rw [if_neg (fun hcon => hcon ht), if_pos ⟨by rw [hs]; rfl, hdue⟩, hup]
  rw [hres]
  exact ⟨rfl, getAssoc_setAssoc_self st.tasks (uid, freshId) (postDoc b now), rfl, rfl⟩

/-- Witness for C7: a rejecting provider fails the create request while
the document is left written without an event id. -/
theorem c7_witness :
    (postTasks failProvider fixedISO wStPost "u" "t1" 0 wPostBody).resp =
      .thrown "provider down" ∧
    getAssoc (postTasks failProvider fixedISO wStPost "u" "t1" 0 wPostBody).st.tasks
      ("u", "t1") = some (postDoc wPostBody 0) ∧
    (postDoc wPostBody 0).calendarEventId = none ∧
    (postTasks failProvider fixedISO wStPost "u" "t1" 0 wPostBody).calls =
      [.insert (buildEvent fixedISO (postUTask wPostBody))] :=
  c7_post_sync_error_propagates failProvider fixedISO wStPost "u" "t1" 0 wPostBody
    "provider down" (by decide) rfl (by decide) (by decide) rfl

theorem upsert_connected_eq {σ : Type} (P : Provider σ)
    (fromISO : Option String → String → LDT) (creds : List (String × Tokens)) (cal : σ)
    (uid : String) (t : UTask) (tk : Tokens)
    (htk : calendarClientFor creds uid = some tk) :
    upsertCalendarEvent P fromISO creds cal uid t =
      (if truthyS t.calendarEventId then
        match P.update cal (t.calendarEventId.getD "") (buildEvent fromISO t) with
        | .ok (cal2, rid) =>
          (.ok (cal2, some rid), [.update (t.calendarEventId.getD "") (buildEvent fromISO t)])
        | .thrown e => (.thrown e, [.update (t.calendarEventId.getD "") (buildEvent fromISO t)])
      else
        match P.insert cal (buildEvent fromISO t) with
        | .ok (cal2, rid) => (.ok (cal2, some rid), [.insert (buildEvent fromISO t)])
        | .thrown e => (.thrown e, [.insert (buildEvent fromISO t)])) := by
  simp only [upsertCalendarEvent, htk]

theorem postTasks_sync_eq {σ : Type} (P : Provider σ)
    (fromISO : Option String → String → LDT) (st : St σ) (uid freshId : String) (now : Nat)
    (b : PostBody)
    (ht : truthyS b.title = true) (hs : b.calendarSync.getD false = true)
    (hdue : truthyS b.dueDateTime = true) (tk : Tokens)
    (htk : calendarClientFor st.creds uid = some tk) :
    postTasks P fromISO st uid freshId now b =
      (match P.insert st.cal (buildEvent fromISO (postUTask b)) with
      | .thrown e =>
        { resp := .thrown e
          st := { st with tasks := setAssoc st.tasks (uid, freshId) (postDoc b now) }
          calls := [.insert (buildEvent fromISO (postUTask b))] }
      | .ok (cal2, rid) =>
        { resp := .ok (.created freshId
            { postDoc b now with calendarEventId := some rid, updatedAt := some now })
          st := { st with
            tasks := setAssoc (setAssoc st.tasks (uid, freshId) (postDoc b now)) (uid, freshId)
              { postDoc b now with calendarEventId := some rid, updatedAt := some now }
            cal := cal2 }
          calls := [.insert (buildEvent fromISO (postUTask b))] }) := by
  have hcen : truthyS (postUTask b).calendarEventId = false := rfl
  simp only [postTasks]
  rw [if_neg (fun hcon => hcon ht), if_pos ⟨hs, hdue⟩]
  simp only [upsertCalendarEvent, htk, hcen, Bool.false_eq_true, if_false]
  cases P.insert st.cal (buildEvent fromISO (postUTask b)) with
  | ok pr => obtain ⟨cal2, rid⟩ := pr; rfl
  | thrown e => rfl

theorem patchTasks_sync_eq {σ : Type} (P : Provider σ)
    (fromISO : Option String → String → LDT) (st : St σ) (uid tid : String) (now : Nat)
    (b : TaskDoc)
    (hg : patchSyncGuard { b with updatedAt := some now } = true)
    (hdue : truthyS (mergeDoc ((getAssoc st.tasks (uid, tid)).getD emptyDoc)
      { b with updatedAt := some now }).dueDateTime = true) :
    patchTasks P fromISO st uid tid now b =
      (match upsertCalendarEvent P fromISO st.creds st.cal uid
          (patchUTask (mergeDoc ((getAssoc st.tasks (uid, tid)).getD emptyDoc)
            { b with updatedAt := some now })) with
      | (.thrown e, cs) =>
        { resp := .thrown e
          st := { st with tasks := setAssoc st.tasks (uid, tid)
                            (mergeDoc ((getAssoc st.tasks (uid, tid)).getD emptyDoc)
                              { b with updatedAt := some now }) }
          calls := cs }
      | (.ok (cal2, eidOpt), cs) =>
        { resp := .ok (.okTask tid
            { mergeDoc ((getAssoc st.tasks (uid, tid)).getD emptyDoc)
                { b with updatedAt := some now } with
              calendarEventId := eidOpt, updatedAt := some now })
          st := { st with
            tasks := setAssoc (setAssoc st.tasks (uid, tid)
                        (mergeDoc ((getAssoc st.tasks (uid, tid)).getD emptyDoc)
                          { b with updatedAt := some now })) (uid, tid)
                        { mergeDoc ((getAssoc st.tasks (uid, tid)).getD emptyDoc)
                            { b with updatedAt := some now } with
                          calendarEventId := eidOpt, updatedAt := some now }
            cal := cal2 }
          calls := cs }) := by
  simp only [patchTasks]
  rw [if_pos hg, if_pos hdue]

theorem patchTasks_nosync_eq {σ : Type} (P : Provider σ)
    (fromISO : Option String → String → LDT) (st : St σ) (uid tid : String) (now : Nat)
    (b : TaskDoc)
    (h : patchSyncGuard { b with updatedAt := some now } = false ∨
      ¬ truthyS (mergeDoc ((getAssoc st.tasks (uid, tid)).getD emptyDoc)
        { b with updatedAt := some now }).dueDateTime) :
    patchTasks P fromISO st uid tid now b =
      { resp := .ok (.okTask tid (mergeDoc ((getAssoc st.tasks (uid, tid)).getD emptyDoc)
          { b with updatedAt := some now }))
        st := { st with tasks := setAssoc st.tasks (uid, tid)
                          (mergeDoc ((getAssoc st.tasks (uid, tid)).getD emptyDoc)
                            { b with updatedAt := some now }) }
        calls := [] } := by
  simp only [patchTasks]
  rcases h with hg | hdue
  · rw [if_neg (by simp [hg])]
  · by_cases hg : patchSyncGuard { b with updatedAt := some now } = true
    · rw [if_pos hg, if_neg hdue]
    · rw [if_neg hg]

/-- C4: when the task already carries a calendarEventId, the upsert issues
an update against that event id, never an insert; against the honest
calendar model, running it twice with the identical task returns the same
event id both times and leaves the number of remote events unchanged — no
duplicate is created. -/
theorem c4_upsert_update_idempotent
    (fromISO : Option String → String → LDT) (creds : List (String × Tokens))
    (cal : CalState) (uid : String) (t : UTask) (e : String)
    (hc : (calendarClientFor creds uid).isSome)
    (he : t.calendarEventId = some e) (hne : e ≠ "")
    (hex : (getAssoc cal.events e).isSome) :
    upsertCalendarEvent GCal fromISO creds cal uid t =
      (.ok ({ cal with events := setEvent cal.events e (buildEvent fromISO t) }, some e),
        [.update e (buildEvent fromISO t)]) ∧
    (setEvent cal.events e (buildEvent fromISO t)).length = cal.events.length ∧
    upsertCalendarEvent GCal fromISO creds
        { cal with events := setEvent cal.events e (buildEvent fromISO t) } uid t =
      (.ok ({ cal with
          events := setEvent (setEvent cal.events e (buildEvent fromISO t)) e
            (buildEvent fromISO t) }, some e),
        [.update e (buildEvent fromISO t)]) ∧
    (setEvent (setEvent cal.events e (buildEvent fromISO t)) e (buildEvent fromISO t)).length =
      cal.events.length := by
  obtain ⟨tk, htk⟩ := Option.isSome_iff_exists.mp hc
  have htr : truthyS t.calendarEventId = true := by simp [truthyS, he, hne]
  have hgd : t.calendarEventId.getD "" = e := by rw [he]; rfl
  have step : ∀ c : CalState, (getAssoc c.events e).isSome →
      upsertCalendarEvent GCal fromISO creds c uid t =
        (.ok ({ c with events := setEvent c.events e (buildEvent fromISO t) }, some e),
          [.update e (buildEvent fromISO t)]) := by
    intro c hcex
    rw [upsert_connected_eq GCal fromISO creds c uid t tk htk, if_pos htr, hgd]
    simp only [GCal, hcex, if_true]
  refine ⟨step cal hex, length_setEvent cal.events e (buildEvent fromISO t), ?_, ?_⟩
  · apply step
    rw [getAssoc_setEvent_isSome]
    exact hex
  · rw [length_setEvent, length_setEvent]

/-- A task value carrying an existing remote event id. -/
def wUT : UTask :=
  { title := some "t", dueDateTime := some "2024-05-01T09:00", calendarEventId := some "E1" }

/-- Honest calendar state holding the one event `"E1"`. -/
def wCal : CalState := { events := [("E1", buildEvent fixedISO wUT)], nextId := 0 }

/-- Witness for C4 at the one-event calendar state. -/
theorem c4_witness :
    upsertCalendarEvent GCal fixedISO wCreds wCal "u" wUT =
      (.ok ({ wCal with events := setEvent wCal.events "E1" (buildEvent fixedISO wUT) },
        some "E1"), [.update "E1" (buildEvent fixedISO wUT)]) ∧
    (setEvent wCal.events "E1" (buildEvent fixedISO wUT)).length = wCal.events.length ∧
    upsertCalendarEvent GCal fixedISO wCreds
        { wCal with events := setEvent wCal.events "E1" (buildEvent fixedISO wUT) } "u" wUT =
      (.ok ({ wCal with
          events := setEvent (setEvent wCal.events "E1" (buildEvent fixedISO wUT)) "E1"
            (buildEvent fixedISO wUT) }, some "E1"), [.update "E1" (buildEvent fixedISO wUT)]) ∧
    (setEvent (setEvent wCal.events "E1" (buildEvent fixedISO wUT)) "E1"
      (buildEvent fixedISO wUT)).length = wCal.events.length :=
  c4_upsert_update_idempotent fixedISO wCreds wCal "u" wUT "E1"
    (by decide) rfl (by decide) (by decide)

/-- C1 (amended): the absence of provider calls is governed by the
request-level guards, not by the stored task's fields: POST /tasks makes
no provider call when the body's calendarSync is not true or its
dueDateTime is falsy; PATCH /tasks/:id makes no provider call when its
payload guard `(payload.calendarSync || payload.dueDateTime) &&
payload.calendarSync !== false` fails, or when the merged task has no
truthy dueDateTime; DELETE /tasks/:id makes no provider call when the
stored task carries no truthy calendarEventId. (The original task-level
statement fails: a PATCH can call the provider for a stored task whose
calendarSync is false — see the counterexample.) -/
theorem c1_no_calls_under_request_guards
    {σ : Type} (P : Provider σ) (fromISO : Option String → String → LDT)
    (st : St σ) (uid tid : String) (now : Nat) :
    (∀ b : PostBody, ¬ (b.calendarSync.getD false ∧ truthyS b.dueDateTime) →
      (postTasks P fromISO st uid tid now b).calls = []) ∧
    (∀ b : TaskDoc,
      patchSyncGuard { b with updatedAt := some now } = false ∨
        ¬ truthyS (mergeDoc ((getAssoc st.tasks (uid, tid)).getD emptyDoc)
          { b with updatedAt := some now }).dueDateTime →
      (patchTasks P fromISO st uid tid now b).calls = []) ∧
    (∀ d : TaskDoc, getAssoc st.tasks (uid, tid) = some d →
      ¬ truthyS d.calendarEventId → (deleteTasks P st uid tid).calls = []) := by
  refine ⟨?_, ?_, ?_⟩
  · intro b h
    by_cases ht : truthyS b.title
    · simp only [postTasks]
      rw [if_neg (fun hcon => hcon ht), if_neg h]
    · simp only [postTasks]
      rw [if_pos ht]
  · intro b h
    rw [patchTasks_nosync_eq P fromISO st uid tid now b h]
  · intro d hd hne
    have htr : truthyS d.calendarEventId = false := by simpa using hne
    simp [deleteTasks, hd, htr]

/-- A task document with no sync-relevant fields. -/
def wDocPlain : TaskDoc := { title := some "t" }

/-- State holding the connected user `"u"` and the plain task `"t1"`. -/
def wStPlain : St Unit := { creds := wCreds, tasks := [(("u", "t1"), wDocPlain)], cal := () }

/-- Witness for C1: a sync-free POST body, a PATCH payload with
calendarSync explicitly false, and a DELETE of a task without an event id
each issue no provider call. -/
theorem c1_witness :
    (postTasks okProvider fixedISO wStPost "u" "t1" 0 { title := some "t" }).calls = [] ∧
    (patchTasks okProvider fixedISO wStDel "u" "t1" 5 { calendarSync := some false }).calls = [] ∧
    (deleteTasks okProvider wStPlain "u" "t1").calls = [] := by
  refine ⟨?_, ?_, ?_⟩
  · exact (c1_no_calls_under_request_guards okProvider fixedISO wStPost "u" "t1" 0).1
      { title := some "t" } (by decide)
  · exact (c1_no_calls_under_request_guards okProvider fixedISO wStDel "u" "t1" 5).2.1
      { calendarSync := some false } (Or.inl (by decide))
  · exact (c1_no_calls_under_request_guards okProvider fixedISO wStPlain "u" "t1" 0).2.2
      wDocPlain (by decide) (by decide)

/-- A stored task with calendarSync false and a due date. -/
def c1Doc : TaskDoc :=
  { title := some "t", dueDateTime := some "2024-01-01T10:00", calendarSync := some false }

/-- State holding the connected user `"u"` and the task `c1Doc`. -/
def c1St : St Unit := { creds := wCreds, tasks := [(("u", "t1"), c1Doc)], cal := () }

/-- A PATCH body that only changes the due date. -/
def c1Body : TaskDoc := { dueDateTime := some "2024-01-02T10:00" }

/-- C1 counterexample: a PATCH that only changes the due date of a stored
task whose calendarSync is false still issues a calendar provider call —
the handler guards on the request payload, not on the stored task. -/
theorem c1_counterexample :
    ((getAssoc (patchTasks okProvider fixedISO c1St "u" "t1" 5 c1Body).st.tasks
        ("u", "t1")).bind TaskDoc.calendarSync = some false) ∧
    (patchTasks okProvider fixedISO c1St "u" "t1" 5 c1Body).calls ≠ [] := by
  decide

/-- The single provider call the upsert issues for a connected user: an
update against the stored event id when truthy, an insert otherwise. -/
def upsertCall (fromISO : Option String → String → LDT) (t : UTask) : CalCall :=
  if truthyS t.calendarEventId then
    .update (t.calendarEventId.getD "") (buildEvent fromISO t)
  else
    .insert (buildEvent fromISO t)

/-- C3 (amended): the event payload always has summary = title,
description = description-or-empty, start = dueDateTime interpreted in the
task's timezone with the fixed `Africa/Lagos` fallback, and
end = start + 30 minutes; and — additionally assuming the user's stored
credentials resolve to a connected calendar client — after a successful
sync-eligible POST or sync-triggering PATCH the stored task's
calendarEventId is non-null and exactly the one upsert call with that
payload was issued. (Without the connected-client hypothesis the original
claim fails: see the counterexample, a not-connected user gets a
successful POST with a null calendarEventId.) -/
theorem c3_synced_task_gets_event_id_and_payload
    {σ : Type} (P : Provider σ) (fromISO : Option String → String → LDT)
    (st : St σ) (uid tid : String) (now : Nat) :
    (∀ t : UTask,
      (buildEvent fromISO t).summary = t.title ∧
      (buildEvent fromISO t).description = t.description.getD "" ∧
      (buildEvent fromISO t).startT = fromISO t.dueDateTime (zoneOf t.timezone) ∧
      (buildEvent fromISO t).endT =
        (fromISO t.dueDateTime (zoneOf t.timezone)).plusMinutes 30) ∧
    (∀ (b : PostBody) (r : TResp),
      truthyS b.title → b.calendarSync.getD false = true → truthyS b.dueDateTime →
      (calendarClientFor st.creds uid).isSome →
      (postTasks P fromISO st uid tid now b).resp = .ok r →
      ((getAssoc (postTasks P fromISO st uid tid now b).st.tasks (uid, tid)).bind
        TaskDoc.calendarEventId).isSome ∧
      (postTasks P fromISO st uid tid now b).calls =
        [.insert (buildEvent fromISO (postUTask b))]) ∧
    (∀ (b : TaskDoc) (r : TResp),
      patchSyncGuard { b with updatedAt := some now } = true →
      truthyS (mergeDoc ((getAssoc st.tasks (uid, tid)).getD emptyDoc)
        { b with updatedAt := some now }).dueDateTime →
      (calendarClientFor st.creds uid).isSome →
      (patchTasks P fromISO st uid tid now b).resp = .ok r →
      ((getAssoc (patchTasks P fromISO st uid tid now b).st.tasks (uid, tid)).bind
        TaskDoc.calendarEventId).isSome ∧
      (patchTasks P fromISO st uid tid now b).calls =
        [upsertCall fromISO (patchUTask (mergeDoc ((getAssoc st.tasks (uid, tid)).getD emptyDoc)
          { b with updatedAt := some now }))]) := by
  refine ⟨fun t => ⟨rfl, rfl, rfl, rfl⟩, ?_, ?_⟩
  · intro b r ht hs hdue hc hr
    obtain ⟨tk, htk⟩ := Option.isSome_iff_exists.mp hc
    have heq := postTasks_sync_eq P fromISO st uid tid now b ht hs hdue tk htk
    cases hins : P.insert st.cal (buildEvent fromISO (postUTask b)) with
    | thrown e =>
      rw [heq, hins] at hr
      simp at hr
    | ok pr =>
      obtain ⟨cal2, rid⟩ := pr
      rw [heq, hins]
      exact ⟨by simp [getAssoc_setAssoc_self], rfl⟩
  · intro b r hg hdue hc hr
    obtain ⟨tk, htk⟩ := Option.isSome_iff_exists.mp hc
    have heq := patchTasks_sync_eq P fromISO st uid tid now b hg hdue
    have hup := upsert_connected_eq P fromISO st.creds st.cal uid
      (patchUTask (mergeDoc ((getAssoc st.tasks (uid, tid)).getD emptyDoc)
        { b with updatedAt := some now })) tk htk
    by_cases he : truthyS (patchUTask (mergeDoc ((getAssoc st.tasks (uid, tid)).getD emptyDoc)
        { b with updatedAt := some now })).calendarEventId
    · rw [if_pos he] at hup
      cases hq : P.update st.cal
          ((patchUTask (mergeDoc ((getAssoc st.tasks (uid, tid)).getD emptyDoc)
            { b with updatedAt := some now })).calendarEventId.getD "")
          (buildEvent fromISO (patchUTask (mergeDoc ((getAssoc st.tasks (uid, tid)).getD emptyDoc)
            { b with updatedAt := some now }))) with
      | thrown e =>
        rw [hq] at hup
        rw [heq, hup] at hr
        simp at hr
      | ok pr =>
        obtain ⟨cal2, rid⟩ := pr
        rw [hq] at hup
        rw [heq, hup]
        exact ⟨by simp [getAssoc_setAssoc_self], by simp [upsertCall, he]⟩
    · rw [if_neg he] at hup
      cases hq : P.insert st.cal
          (buildEvent fromISO (patchUTask (mergeDoc ((getAssoc st.tasks (uid, tid)).getD emptyDoc)
            { b with updatedAt := some now }))) with
      | thrown e =>
        rw [hq] at hup
        rw [heq, hup] at hr
        simp at hr
      | ok pr =>
        obtain ⟨cal2, rid⟩ := pr
        rw [hq] at hup
        rw [heq, hup]
        exact ⟨by simp [getAssoc_setAssoc_self], by simp [upsertCall, he]⟩

/-- State with no credentials and no tasks. -/
def emptySt : St Unit := { creds := [], tasks := [], cal := () }

/-- C3 counterexample: with calendarSync=true and a due date but no stored
credentials, POST /tasks succeeds (201 with the created task) while the
task's calendarEventId is null and no remote event was created. -/
theorem c3_counterexample :
    (postTasks okProvider fixedISO emptySt "u" "t1" 0 wPostBody).resp =
      .ok (.created "t1" (postDoc wPostBody 0)) ∧
    (postDoc wPostBody 0).calendarEventId = none ∧
    (postTasks okProvider fixedISO emptySt "u" "t1" 0 wPostBody).calls = [] := by
  decide

/-- Witness for C3: the connected user both on the POST path and on the
PATCH path, plus the payload shape at a concrete task. -/
theorem c3_witness :
    (((getAssoc (postTasks okProvider fixedISO wStPost "u" "t1" 0 wPostBody).st.tasks
        ("u", "t1")).bind TaskDoc.calendarEventId).isSome ∧
      (postTasks okProvider fixedISO wStPost "u" "t1" 0 wPostBody).calls =
        [.insert (buildEvent fixedISO (postUTask wPostBody))]) ∧
    (((getAssoc (patchTasks okProvider fixedISO wStDel "u" "t1" 5
        { dueDateTime := some "2024-05-02T10:00" }).st.tasks
        ("u", "t1")).bind TaskDoc.calendarEventId).isSome ∧
      (patchTasks okProvider fixedISO wStDel "u" "t1" 5
          { dueDateTime := some "2024-05-02T10:00" }).calls =
        [upsertCall fixedISO (patchUTask (mergeDoc ((getAssoc wStDel.tasks ("u", "t1")).getD
          emptyDoc) { ({ dueDateTime := some "2024-05-02T10:00" } : TaskDoc) with
            updatedAt := some 5 }))]) ∧
    (buildEvent fixedISO wUT).endT =
      (fixedISO wUT.dueDateTime (zoneOf wUT.timezone)).plusMinutes 30 := by
  refine ⟨?_, ?_, ?_⟩
  · exact (c3_synced_task_gets_event_id_and_payload okProvider fixedISO wStPost "u" "t1" 0).2.1
      wPostBody
      (TResp.created "t1" { postDoc wPostBody 0 with
        calendarEventId := some "E1", updatedAt := some 0 })
      (by decide) (by decide) (by decide) (by decide) (by decide)
  · exact (c3_synced_task_gets_event_id_and_payload okProvider fixedISO wStDel "u" "t1" 5).2.2
      { dueDateTime := some "2024-05-02T10:00" }
      (TResp.okTask "t1" { mergeDoc wDocSynced { ({ dueDateTime := some "2024-05-02T10:00" } :
          TaskDoc) with updatedAt := some 5 } with
        calendarEventId := some "E1", updatedAt := some 5 })
      (by decide) (by decide) (by decide) (by decide)
  · exact ((c3_synced_task_gets_event_id_and_payload okProvider fixedISO wStPost "u" "t1" 0).1
      wUT).2.2.2

/-- C9 (amended): in the OAuth callback the code exchange runs before the
uid check, so a failing exchange answers 500 even when the state also
lacks a user identity; when the exchange succeeds and the parsed state
lacks a truthy uid the response is 400; and the credential store is
written only when the exchange succeeded and the state carries a truthy
uid (so the uid is validated before the tokens are persisted, though not
before the exchange itself). -/
theorem c9_callback_precedence_and_write_guard
    (parseState : String → Outcome OAuthState) (getToken : Option String → Outcome Tokens)
    (pr : Option String) (creds : List (String × Tokens)) (code stateQ : Option String) :
    (∀ (parsed : OAuthState) (e : String),
      cbParsed parseState stateQ = .ok parsed → getToken code = .thrown e →
      oauthCallback parseState getToken pr creds code stateQ =
        (.serverError "OAuth error", creds)) ∧
    (∀ (parsed : OAuthState) (tokens : Tokens),
      cbParsed parseState stateQ = .ok parsed → getToken code = .ok tokens →
      ¬ truthyS parsed.uid →
      oauthCallback parseState getToken pr creds code stateQ =
        (.badRequest "Missing user context.", creds)) ∧
    (¬ (∃ (parsed : OAuthState) (tokens : Tokens),
        cbParsed parseState stateQ = .ok parsed ∧ getToken code = .ok tokens ∧
        truthyS parsed.uid) →
      (oauthCallback parseState getToken pr creds code stateQ).2 = creds) := by
  refine ⟨?_, ?_, ?_⟩
  · intro parsed e hp hge
    simp only [oauthCallback, hp, hge]
  · intro parsed tokens hp hg hu
    simp only [oauthCallback, hp, hg]
    rw [if_pos hu]
  · intro hn
    cases hp : cbParsed parseState stateQ with
    | thrown e => simp [oauthCallback, hp]
    | ok parsed =>
      cases hg : getToken code with
      | thrown e => simp [oauthCallback, hp, hg]
      | ok tokens =>
        by_cases hu : truthyS parsed.uid
        · exact absurd ⟨parsed, tokens, hp, hg, hu⟩ hn
        · simp only [oauthCallback, hp, hg]
          rw [if_pos hu]

/-- A state parser producing an empty payload (no uid). -/
def okParse : String → Outcome OAuthState := fun _ => .ok {}

/-- An exchange that always rejects (expired or invalid code). -/
def badExchange : Option String → Outcome Tokens := fun _ => .thrown "invalid_grant"

/-- An exchange that always succeeds. -/
def okExchange : Option String → Outcome Tokens :=
  fun _ => .ok { access_token := some "AT", refresh_token := some "RT" }

/-- C9 counterexample: a request whose state lacks a user identity AND
whose code exchange fails is answered 500, not 400 — the exchange runs
before the uid validation, contradicting the claimed 400 for every
uid-less state. -/
theorem c9_counterexample :
    oauthCallback okParse badExchange none [] (some "code123") none =
      (.serverError "OAuth error", []) ∧
    oauthCallback okParse badExchange none [] (some "code123") none ≠
      (.badRequest "Missing user context.", []) := by
  decide

/-- Witness for C9: the 500-before-400 precedence, the 400 case, and the
no-write guarantee at concrete inputs. -/
theorem c9_witness :
    oauthCallback okParse badExchange none [] (some "c") (some "s") =
      (.serverError "OAuth error", []) ∧
    oauthCallback okParse okExchange none [] (some "c") (some "s") =
      (.badRequest "Missing user context.", []) ∧
    (oauthCallback okParse badExchange none [] (some "c") none).2 = [] := by
  refine ⟨?_, ?_, ?_⟩
  · exact (c9_callback_precedence_and_write_guard okParse badExchange none [] (some "c")
      (some "s")).1 {} "invalid_grant" rfl rfl
  · exact (c9_callback_precedence_and_write_guard okParse okExchange none [] (some "c")
      (some "s")).2.1 {} { access_token := some "AT", refresh_token := some "RT" }
      rfl rfl (by decide)
  · exact (c9_callback_precedence_and_write_guard okParse badExchange none [] (some "c")
      none).2.2 (fun ⟨p, t, hp, hg, hu⟩ => Outcome.noConfusion hg)

/-- C10 (amended): PATCH on an id with no stored record does not fail
with a not-found error: the merge write creates a document holding
exactly the supplied fields plus updatedAt and the response is 200 with
that record, provided the payload does not trigger the calendar-sync path
(or the merged task has no truthy dueDateTime); when the sync path does
run and the request succeeds, the stored and returned record is that same
merge except that it additionally carries the written-back
calendarEventId. (The unamended claim fails on a sync-triggering payload
for a connected user: see the counterexample.) -/
theorem c10_patch_missing_id_creates_record
    {σ : Type} (P : Provider σ) (fromISO : Option String → String → LDT)
    (st : St σ) (uid tid : String) (now : Nat) (b : TaskDoc)
    (habs : getAssoc st.tasks (uid, tid) = none) :
    (patchSyncGuard { b with updatedAt := some now } = false ∨
        ¬ truthyS (mergeDoc emptyDoc { b with updatedAt := some now }).dueDateTime →
      patchTasks P fromISO st uid tid now b =
        { resp := .ok (.okTask tid (mergeDoc emptyDoc { b with updatedAt := some now }))
          st := { st with tasks := setAssoc st.tasks (uid, tid)
                            (mergeDoc emptyDoc { b with updatedAt := some now }) }
          calls := [] }) ∧
    (∀ r : TResp, (patchTasks P fromISO st uid tid now b).resp = .ok r →
      ∃ d : TaskDoc, r = .okTask tid d ∧
        getAssoc (patchTasks P fromISO st uid tid now b).st.tasks (uid, tid) = some d ∧
        ∃ eidOpt : Option String,
          d = { mergeDoc emptyDoc { b with updatedAt := some now } with
            calendarEventId := eidOpt, updatedAt := some now }) := by
  have hold : (getAssoc st.tasks (uid, tid)).getD emptyDoc = emptyDoc := by rw [habs]; rfl
  constructor
  · intro h
    have h' : patchSyncGuard { b with updatedAt := some now } = false ∨
        ¬ truthyS (mergeDoc ((getAssoc st.tasks (uid, tid)).getD emptyDoc)
          { b with updatedAt := some now }).dueDateTime := by
      rw [hold]; exact h
    rw [patchTasks_nosync_eq P fromISO st uid tid now b h', hold]
  · intro r hr
    have hmerge : mergeDoc ((getAssoc st.tasks (uid, tid)).getD emptyDoc)
        { b with updatedAt := some now } =
        mergeDoc emptyDoc { b with updatedAt := some now } := by rw [hold]
    by_cases hg : patchSyncGuard { b with updatedAt := some now } = true
    · by_cases hdue : truthyS (mergeDoc ((getAssoc st.tasks (uid, tid)).getD emptyDoc)
          { b with updatedAt := some now }).dueDateTime
      · have heq := patchTasks_sync_eq P fromISO st uid tid now b hg hdue
        rw [heq] at hr ⊢
        cases hq : upsertCalendarEvent P fromISO st.creds st.cal uid
            (patchUTask (mergeDoc ((getAssoc st.tasks (uid, tid)).getD emptyDoc)
              { b with updatedAt := some now })) with
        | mk out cs =>
          cases out with
          | thrown e => rw [hq] at hr; simp at hr
          | ok pr =>
            obtain ⟨cal2, eidOpt⟩ := pr
            rw [hq] at hr
            refine ⟨{ mergeDoc ((getAssoc st.tasks (uid, tid)).getD emptyDoc)
                { b with updatedAt := some now } with
              calendarEventId := eidOpt, updatedAt := some now }, ?_, ?_, eidOpt,
              by rw [hmerge]⟩
            · have hr2 : Outcome.ok (TResp.okTask tid
                  { mergeDoc ((getAssoc st.tasks (uid, tid)).getD emptyDoc)
                      { b with updatedAt := some now } with
                    calendarEventId := eidOpt, updatedAt := some now }) = Outcome.ok r := hr
              injection hr2 with h
              exact h.symm
            · exact getAssoc_setAssoc_self _ _ _
      · have heq := patchTasks_nosync_eq P fromISO st uid tid now b (Or.inr hdue)
        rw [heq] at hr ⊢
        refine ⟨mergeDoc ((getAssoc st.tasks (uid, tid)).getD emptyDoc)
                  { b with updatedAt := some now }, ?_, getAssoc_setAssoc_self _ _ _,
                (mergeDoc ((getAssoc st.tasks (uid, tid)).getD emptyDoc)
                  { b with updatedAt := some now }).calendarEventId, by rw [hmerge]; rfl⟩
        have hr2 : Outcome.ok (TResp.okTask tid (mergeDoc ((getAssoc st.tasks
            (uid, tid)).getD emptyDoc) { b with updatedAt := some now })) = Outcome.ok r := hr
        injection hr2 with h
        exact h.symm
    · have heq := patchTasks_nosync_eq P fromISO st uid tid now b
        (Or.inl (by simpa using hg))
      rw [heq] at hr ⊢
      refine ⟨mergeDoc ((getAssoc st.tasks (uid, tid)).getD emptyDoc)
                { b with updatedAt := some now }, ?_, getAssoc_setAssoc_self _ _ _,
              (mergeDoc ((getAssoc st.tasks (uid, tid)).getD emptyDoc)
                { b with updatedAt := some now }).calendarEventId, by rw [hmerge]; rfl⟩
      have hr2 : Outcome.ok (TResp.okTask tid (mergeDoc ((getAssoc st.tasks
          (uid, tid)).getD emptyDoc) { b with updatedAt := some now })) = Outcome.ok r := hr
      injection hr2 with h
      exact h.symm

/-- A PATCH body that triggers the sync path. -/
def c10Body : TaskDoc :=
  { title := some "n", dueDateTime := some "2024-06-01T10:00", calendarSync := some true }

/-- C10 counterexample: for a connected user, a PATCH on a missing id
whose payload triggers sync stores and returns a record that carries a
calendarEventId the payload never supplied — the response record is not
just the supplied fields plus updatedAt. -/
theorem c10_counterexample :
    getAssoc wStPost.tasks ("u", "t9") = none ∧
    (patchTasks okProvider fixedISO wStPost "u" "t9" 7 c10Body).resp ≠
      .ok (.okTask "t9" (mergeDoc emptyDoc { c10Body with updatedAt := some 7 })) ∧
    ((getAssoc (patchTasks okProvider fixedISO wStPost "u" "t9" 7 c10Body).st.tasks
      ("u", "t9")).bind TaskDoc.calendarEventId) = some "E1" := by
  decide

/-- Witness for C10: a sync-free PATCH on a missing id creates exactly the
supplied fields plus updatedAt and answers 200. -/
theorem c10_witness :
    patchTasks okProvider fixedISO wStPost "u" "t2" 3 { title := some "x" } =
      { resp := .ok (.okTask "t2" (mergeDoc emptyDoc
          { ({ title := some "x" } : TaskDoc) with updatedAt := some 3 }))
        st := { wStPost with
                tasks := setAssoc wStPost.tasks ("u", "t2")
                           (mergeDoc emptyDoc
                             { ({ title := some "x" } : TaskDoc) with updatedAt := some 3 }) }
        calls := [] } :=
  (c10_patch_missing_id_creates_record okProvider fixedISO wStPost "u" "t2" 3
    { title := some "x" } (by decide)).1 (Or.inl (by decide))

end TaskFlow
